import Mathlib

/-!
# Verification of the import-rewriter core (`src/getRequires.ts`)

Shallow embedding of the source-text rewriter: buffers are `List Char`,
JavaScript string/buffer slicing primitives are modelled explicitly, the
`ImportModifier` class is a record threaded through its methods, and the
asynchronous file I/O of `modifyToFile` / `modifyToBuffer` is modelled by an
explicit world state (file content plus an I/O log) together with an outcome
oracle for each I/O step.
-/

/-- `Buffer.subarray(a, b)` on a byte buffer: the span `[a, b)`, clamped to the
buffer and empty when `a ≥ b`. -/
def subarray (buf : List Char) (a b : Nat) : List Char :=
  (buf.drop a).take (b - a)

/-- JavaScript `String.prototype.substring(a, b)`: both indices are clamped to
`[0, length]` and swapped when `a > b`. -/
def jsSubstring (s : List Char) (a b : Int) : List Char :=
  let len := s.length
  let a1 := min (max a 0).toNat len
  let b1 := min (max b 0).toNat len
  let lo := min a1 b1
  let hi := max a1 b1
  (s.drop lo).take (hi - lo)

/-- An acorn string-literal node as used by the rewriter: `start`/`stop` are the
byte offsets of the span (acorn's `start`/`end`; `end` is a Lean keyword) and
`value` is the parsed inner string (without quotes). -/
structure Literal where
  start : Nat
  stop : Nat
  value : String
deriving DecidableEq

/-- The `LocalImportTransform` interface: a rewrite policy with
`transform`/`isLocalFile`. -/
structure LocalImportTransform where
  transform : String → String
  isLocalFile : String → Bool

/-- The `BasicFileExtensionTransform` class: remaps a trailing extension. -/
structure BasicFileExtensionTransform where
  localExt : String
  toExt : String

/-- `BasicFileExtensionTransform.transform`:
`value.substring(0, value.length - this.localExt.length) + this.toExt`. -/
def BasicFileExtensionTransform.transform (b : BasicFileExtensionTransform)
    (value : String) : String :=
  String.mk (jsSubstring value.data 0
    ((value.data.length : Int) - (b.localExt.data.length : Int))) ++ b.toExt

/-- `BasicFileExtensionTransform.isLocalFile`: `value.endsWith(this.localExt)`. -/
def BasicFileExtensionTransform.isLocalFile (b : BasicFileExtensionTransform)
    (value : String) : Bool :=
  b.localExt.data.isSuffixOf value.data

/-- View the class as its interface. -/
def BasicFileExtensionTransform.toTransform (b : BasicFileExtensionTransform) :
    LocalImportTransform :=
  ⟨b.transform, b.isLocalFile⟩

/-- The per-literal replacement computed inside `ImportModifier.replace`
(lines 192-200): slice the literal span, and when its first character is a
quote, re-wrap the transformed inner text (`substring(1, length - 1)`) in that
same quote character; otherwise transform the whole span text. -/
def replaceLiteral (t : LocalImportTransform) (fileBuffer : List Char)
    (literal : Literal) : List Char :=
  let literalStr := subarray fileBuffer literal.start literal.stop
  match literalStr.head? with
  | some firstChar =>
    if firstChar = '\'' ∨ firstChar = '"' then
      let innerText := jsSubstring literalStr 1 ((literalStr.length : Int) - 1)
      firstChar :: ((t.transform (String.mk innerText)).data ++ [firstChar])
    else
      (t.transform (String.mk literalStr)).data
  | none => (t.transform (String.mk literalStr)).data

/-- `ImportModifier.replace` (lines 184-209): fold over the substitution list
accumulating `splitBuffers` and `lastSplitIdx`; per literal it pushes the span
`[lastSplitIdx, literal.start)` and the replacement, then sets
`lastSplitIdx := literal.end + 1`; finally it pushes the tail
`subarray(lastSplitIdx)` when `lastSplitIdx !== fileBuffer.length`, and
concatenates. -/
def replace (t : LocalImportTransform) (substituteLiterals : List Literal)
    (fileBuffer : List Char) : List Char :=
  let step := fun (acc : List (List Char) × Nat) (literal : Literal) =>
    (acc.1 ++ [subarray fileBuffer acc.2 literal.start,
               replaceLiteral t fileBuffer literal],
     literal.stop + 1)
  let folded := substituteLiterals.foldl step ([], 0)
  let splitBuffers :=
    if folded.2 ≠ fileBuffer.length then folded.1 ++ [fileBuffer.drop folded.2]
    else folded.1
  splitBuffers.flatten

/-- The `ImportModifier` instance state: constructor fields plus the three
private mutable fields. -/
structure ImportModifier where
  filePath : String
  localImportTransform : LocalImportTransform
  substituteLiterals : List Literal
  fileTransformed : Bool
  initialized : Bool

/-- The `ImportModifier` constructor: caches path and policy, private fields
start as `[]` / `false` / `false`. -/
def mkImportModifier (filePath : String) (t : LocalImportTransform) :
    ImportModifier :=
  ⟨filePath, t, [], false, false⟩

/-- `ImportModifier.tryAddToSubstituteList`: push the literal when the policy
classifies its value as local. -/
def tryAddToSubstituteList (m : ImportModifier) (literal : Literal) :
    ImportModifier :=
  if m.localImportTransform.isLocalFile literal.value then
    { m with substituteLiterals := m.substituteLiterals ++ [literal] }
  else m

/-- `ImportModifier.getImportsToModify`: walk the parsed tree visiting the
import/export-source literals in order (`foundLiterals` stands for the node
sequence the walker visits), pushing eligible ones, then sort the accumulated
list ascending by `start` (V8's stable sort with comparator
`l1.start - l2.start`). -/
def getImportsToModify (m : ImportModifier) (foundLiterals : List Literal) :
    ImportModifier :=
  let walked := foundLiterals.foldl tryAddToSubstituteList m
  { walked with
    substituteLiterals :=
      walked.substituteLiterals.mergeSort (fun a b => a.start ≤ b.start) }

/-- `ImportModifier.init` (successful read and parse): run
`getImportsToModify`, then set `initialized`.  The method performs no usage
check of its own. -/
def init (m : ImportModifier) (foundLiterals : List Literal) : ImportModifier :=
  { getImportsToModify m foundLiterals with initialized := true }

/-- Errors thrown by the class methods, plus an injected I/O failure. -/
inductive ModError where
  /-- `'Must initialize ImportModifier before use'` -/
  | notInitialized
  /-- `` `modifyFile already called on ...` `` -/
  | alreadyTransformed
  /-- a failed `open` / `readFile` / `writeFile` call -/
  | ioError
deriving DecidableEq

/-- `ImportModifier.initGuard`: throw unless `initialized`. -/
def initGuard (m : ImportModifier) : Except ModError Unit :=
  if m.initialized = false then .error .notInitialized else .ok ()

/-- One observable file-system operation on the target file. -/
inductive IOOp where
  | openOp
  | readOp
  | writeOp
deriving DecidableEq, BEq

/-- The world the methods act on: the target file's content and the log of
file-system operations performed on it. -/
structure World where
  content : List Char
  log : List IOOp

/-- Outcome oracle for the three suspension points of a method call. -/
structure IOBehavior where
  openOk : Bool
  readOk : Bool
  writeOk : Bool

/-- All I/O succeeds. -/
def ioAllOk : IOBehavior := ⟨true, true, true⟩

/-- `ImportModifier.modifyToFile` (lines 142-158): `initGuard`; throw if
`fileTransformed`; open, read, splice with `replace`, write back; only after
the write completes assign `fileTransformed := true`.  A throw leaves the
instance unchanged (the flag assignment is the last statement); the handle
close in `finally` is not an observable file modification. -/
def modifyToFile (io : IOBehavior) (m : ImportModifier) (w : World) :
    Except ModError Unit × ImportModifier × World :=
  match initGuard m with
  | .error e => (.error e, m, w)
  | .ok _ =>
    if m.fileTransformed then (.error .alreadyTransformed, m, w)
    else if io.openOk = false then (.error .ioError, m, w)
    else
      let w1 : World := { w with log := w.log ++ [IOOp.openOp] }
      if io.readOk = false then (.error .ioError, m, w1)
      else
        let w2 : World := { w1 with log := w1.log ++ [IOOp.readOp] }
        let newBuf := replace m.localImportTransform m.substituteLiterals
          w2.content
        if io.writeOk = false then (.error .ioError, m, w2)
        else
          (.ok (), { m with fileTransformed := true },
           { content := newBuf, log := w2.log ++ [IOOp.writeOp] })

/-- `ImportModifier.modifyToBuffer` (lines 166-178): `initGuard`; open, read,
return the spliced buffer.  No instance field is assigned and the file content
is never written. -/
def modifyToBuffer (io : IOBehavior) (m : ImportModifier) (w : World) :
    Except ModError (List Char) × ImportModifier × World :=
  match initGuard m with
  | .error e => (.error e, m, w)
  | .ok _ =>
    if io.openOk = false then (.error .ioError, m, w)
    else
      let w1 : World := { w with log := w.log ++ [IOOp.openOp] }
      if io.readOk = false then (.error .ioError, m, w1)
      else
        let w2 : World := { w1 with log := w1.log ++ [IOOp.readOp] }
        (.ok (replace m.localImportTransform m.substituteLiterals w2.content),
         m, w2)

/-- `ImportModifier.localImports` getter (lines 216-219): `initGuard`, then the
cached list. -/
def localImports (m : ImportModifier) : Except ModError (List Literal) :=
  match initGuard m with
  | .error e => .error e
  | .ok _ => .ok m.substituteLiterals

/-- Number of write operations in an I/O log. -/
def countWrites : List IOOp → Nat
  | [] => 0
  | IOOp.writeOp :: rest => countWrites rest + 1
  | _ :: rest => countWrites rest

/-- The reference policy of the repository's `main`: `.js` → `.mjs`. -/
def jsToMjs : BasicFileExtensionTransform := ⟨".js", ".mjs"⟩

/-- The single eligible literal of `import x from './a.js'`: span `[14, 22)`. -/
def litA : Literal := ⟨14, 22, "./a.js"⟩

/-- Instance used by concrete checks: the modifier for a `.js` → `.mjs` run,
before `init`. -/
def mJs : ImportModifier := mkImportModifier "test.js" jsToMjs.toTransform

/-- `mJs` after a successful `init` that visited exactly `litA`. -/
def mInitJs : ImportModifier := init mJs [litA]

/-- A world whose file holds the single-import source. -/
def wA : World := ⟨"import x from './a.js'".data, []⟩

theorem countWrites_append (l1 l2 : List IOOp) :
    countWrites (l1 ++ l2) = countWrites l1 + countWrites l2 := by
  induction l1 with
  | nil => simp [countWrites]
  | cons a l ih => cases a <;> (simp [countWrites, ih]; try omega)

theorem foldl_tryAdd (lits : List Literal) (m : ImportModifier) :
    lits.foldl tryAddToSubstituteList m =
      { m with substituteLiterals :=
          m.substituteLiterals ++
            lits.filter (fun l => m.localImportTransform.isLocalFile l.value) } := by
  induction lits generalizing m with
  | nil => simp
  | cons l ls ih =>
    simp only [List.foldl_cons, List.filter_cons]
    by_cases h : m.localImportTransform.isLocalFile l.value = true
    · rw [if_pos h,
        show tryAddToSubstituteList m l
            = { m with substituteLiterals := m.substituteLiterals ++ [l] } from by
          simp [tryAddToSubstituteList, h],
        ih]
      simp
    · rw [if_neg h,
        show tryAddToSubstituteList m l = m from by simp [tryAddToSubstituteList, h],
        ih]

theorem init_substituteLiterals (m : ImportModifier) (lits : List Literal) :
    (init m lits).substituteLiterals =
      (m.substituteLiterals ++
        lits.filter (fun l => m.localImportTransform.isLocalFile l.value)).mergeSort
        (fun a b => a.start ≤ b.start) := by
  simp [init, getImportsToModify, foldl_tryAdd]

/-- C1: the splicer does NOT advance the cursor to exactly the literal's end
offset: it sets `lastSplitIdx := literal.end + 1`, dropping the byte right
after each literal.  The claim's own single-literal example (no byte after
the literal) round-trips, but appending a `;` after the literal shows the
semicolon is lost: the output is `import x from './a.mjs'` without it. -/
theorem replace_drops_byte_after_literal :
    replace jsToMjs.toTransform [litA] ("import x from './a.js'".data)
      = "import x from './a.mjs'".data ∧
    replace jsToMjs.toTransform [litA] ("import x from './a.js';".data)
      = "import x from './a.mjs'".data ∧
    "import x from './a.mjs'".data ≠ "import x from './a.mjs';".data := by
  decide

/-- C2: the length equation fails on the code.  For
`import x from './a.js';` (23 bytes) with the one-entry plan over span
`[14, 22)` (8 bytes) and replacement `'./a.mjs'` (9 bytes), the claim
predicts `23 + (9 - 8) = 24` bytes, but the code produces 23 bytes (the byte
after the literal is dropped). -/
theorem replace_length_mismatch :
    ("import x from './a.js';".data).length = 23 ∧
    (replaceLiteral jsToMjs.toTransform ("import x from './a.js';".data)
        litA).length = 9 ∧
    (subarray ("import x from './a.js';".data) litA.start litA.stop).length
      = 8 ∧
    (replace jsToMjs.toTransform [litA]
        ("import x from './a.js';".data)).length = 23 ∧
    (23 : Int) ≠ 23 + ((9 : Int) - (8 : Int)) := by
  decide

/-- C7: with an empty substitution plan the splicer returns the original
buffer byte for byte. -/
theorem replace_empty_plan (t : LocalImportTransform) (fileBuffer : List Char) :
    replace t [] fileBuffer = fileBuffer := by
  unfold replace
  simp only [List.foldl_nil]
  by_cases h : (0 : Nat) = fileBuffer.length
  · simp [← h, List.length_eq_zero.mp h.symm]
  · simp [h]

/-- C5 (counterexample): calling `init` a second time on an initialized
instance does not fail with a usage error — `init` has no guard — and it
silently re-scans, appending the found literal to the cached list again, so
the plan now holds the literal twice. -/
theorem init_twice_succeeds_and_duplicates :
    (init (init mJs [litA]) [litA]).initialized = true ∧
    (init (init mJs [litA]) [litA]).substituteLiterals = [litA, litA] := by
  refine ⟨rfl, ?_⟩
  rw [init_substituteLiterals]
  have hT : (init mJs [litA]).localImportTransform = mJs.localImportTransform :=
    rfl
  rw [hT]
  have hfilter :
      [litA].filter (fun l => mJs.localImportTransform.isLocalFile l.value)
        = [litA] := by decide
  rw [hfilter]
  have h1 : (init mJs [litA]).substituteLiterals = [litA] := by
    rw [init_substituteLiterals, hfilter]
    simp [mJs, mkImportModifier, List.mergeSort_singleton]
  rw [h1]
  exact List.mergeSort_of_sorted (by simp [litA])

/-- C5 (amended): `init` is total for any instance state — also for an
already-initialized one — and every call re-runs the scan, appending the
newly found eligible literals to the existing cached list before re-sorting,
rather than failing with an already-scanned usage error. -/
theorem init_rescan_appends (m : ImportModifier) (lits : List Literal) :
    (init m lits).initialized = true ∧
    (init m lits).substituteLiterals =
      (m.substituteLiterals ++
        lits.filter (fun l => m.localImportTransform.isLocalFile l.value)).mergeSort
        (fun a b => a.start ≤ b.start) :=
  ⟨rfl, init_substituteLiterals m lits⟩

/-- C3: on an initialized, not-yet-written instance with succeeding I/O, the
first `modifyToFile` succeeds; the second call on the resulting instance
fails with the already-written error, leaves the world untouched, and across
both calls the file receives exactly one write. -/
theorem modifyToFile_apply_once (m : ImportModifier) (w : World)
    (hinit : m.initialized = true) (hnt : m.fileTransformed = false) :
    (modifyToFile ioAllOk m w).1 = Except.ok () ∧
    (modifyToFile ioAllOk ((modifyToFile ioAllOk m w).2.1)
        ((modifyToFile ioAllOk m w).2.2)).1
      = Except.error ModError.alreadyTransformed ∧
    (modifyToFile ioAllOk ((modifyToFile ioAllOk m w).2.1)
        ((modifyToFile ioAllOk m w).2.2)).2.2
      = (modifyToFile ioAllOk m w).2.2 ∧
    countWrites ((modifyToFile ioAllOk m w).2.2).log
      = countWrites w.log + 1 := by
  have h1 : modifyToFile ioAllOk m w =
      (Except.ok (), { m with fileTransformed := true },
       { content := replace m.localImportTransform m.substituteLiterals
           w.content,
         log := ((w.log ++ [IOOp.openOp]) ++ [IOOp.readOp]) ++ [IOOp.writeOp] }) := by
    simp [modifyToFile, initGuard, hinit, hnt, ioAllOk]
  rw [h1]
  refine ⟨rfl, ?_, ?_, ?_⟩
  · simp [modifyToFile, initGuard, hinit]
  · simp [modifyToFile, initGuard, hinit]
  · simp [countWrites_append, countWrites]

/-- C3 witness: the guarantees at the concrete `.js` → `.mjs` instance. -/
theorem modifyToFile_apply_once_witness :
    mInitJs.initialized = true ∧ mInitJs.fileTransformed = false ∧
    ((modifyToFile ioAllOk mInitJs wA).1 = Except.ok () ∧
     (modifyToFile ioAllOk ((modifyToFile ioAllOk mInitJs wA).2.1)
         ((modifyToFile ioAllOk mInitJs wA).2.2)).1
       = Except.error ModError.alreadyTransformed ∧
     (modifyToFile ioAllOk ((modifyToFile ioAllOk mInitJs wA).2.1)
         ((modifyToFile ioAllOk mInitJs wA).2.2)).2.2
       = (modifyToFile ioAllOk mInitJs wA).2.2 ∧
     countWrites ((modifyToFile ioAllOk mInitJs wA).2.2).log
       = countWrites wA.log + 1) :=
  ⟨by decide, by decide,
   modifyToFile_apply_once mInitJs wA (by decide) (by decide)⟩

/-- C4: on an uninitialized instance, both `modifyToBuffer` and
`modifyToFile` fail with the not-initialized error, leave the instance
unchanged and perform no file I/O (content and log untouched), for every
file/policy combination. -/
theorem preInit_calls_fail (io : IOBehavior) (m : ImportModifier) (w : World)
    (h : m.initialized = false) :
    modifyToBuffer io m w = (Except.error ModError.notInitialized, m, w) ∧
    modifyToFile io m w = (Except.error ModError.notInitialized, m, w) := by
  constructor <;> simp [modifyToBuffer, modifyToFile, initGuard, h]

/-- C4 witness: the pre-scan guard at the concrete uninitialized instance. -/
theorem preInit_calls_fail_witness :
    mJs.initialized = false ∧
    (modifyToBuffer ioAllOk mJs wA
        = (Except.error ModError.notInitialized, mJs, wA) ∧
     modifyToFile ioAllOk mJs wA
        = (Except.error ModError.notInitialized, mJs, wA)) :=
  ⟨rfl, preInit_calls_fail ioAllOk mJs wA rfl⟩

/-- C6: when the first byte of an eligible literal's span is a single or
double quote `q`, the replacement segment starts and ends with that very
same `q` — the quote style of the original literal is re-applied on both
sides and never swapped. -/
theorem replaceLiteral_preserves_quote (t : LocalImportTransform)
    (fileBuffer : List Char) (literal : Literal) (q : Char)
    (hq : (subarray fileBuffer literal.start literal.stop).head? = some q)
    (hquote : q = '\'' ∨ q = '"') :
    (replaceLiteral t fileBuffer literal).head? = some q ∧
    (replaceLiteral t fileBuffer literal).getLast? = some q := by
  have hlast : ∀ (c : Char) (xs : List Char),
      (c :: (xs ++ [c])).getLast? = some c := by
    intro c xs
    rw [show c :: (xs ++ [c]) = (c :: xs) ++ [c] from rfl]
    exact List.getLast?_concat _
  simp only [replaceLiteral, hq]
  rw [if_pos hquote]
  exact ⟨rfl, hlast _ _⟩

/-- C6 witness: the single-quoted literal of the reference input keeps its
single quotes. -/
theorem replaceLiteral_preserves_quote_witness :
    ((subarray ("import x from './a.js'".data) litA.start litA.stop).head?
        = some '\'' ∧
     ('\'' = '\'' ∨ '\'' = '"')) ∧
    ((replaceLiteral jsToMjs.toTransform ("import x from './a.js'".data)
        litA).head? = some '\'' ∧
     (replaceLiteral jsToMjs.toTransform ("import x from './a.js'".data)
        litA).getLast? = some '\'') :=
  ⟨⟨by decide, by decide⟩,
   replaceLiteral_preserves_quote jsToMjs.toTransform
     ("import x from './a.js'".data) litA '\'' (by decide) (by decide)⟩

theorem jsSubstring_zero_take (s : List Char) (n : Nat) (hn : n ≤ s.length) :
    jsSubstring s 0 (n : Int) = s.take n := by
  simp only [jsSubstring]
  rw [show (max (0 : Int) 0) = 0 from by simp,
      max_eq_left (Int.natCast_nonneg n), Int.toNat_natCast]
  simp [min_eq_left hn]

/-- C8: for the default extension-remap policy, `isLocalFile` is true exactly
when the path ends with the local suffix — an unconditional biconditional over
every path string, so in particular it is false on non-suffixed strings — and
on any path of the shape `p ++ localExt` the transform returns `p ++ toExt`:
the trailing suffix is replaced and every preceding character is unchanged. -/
theorem basicTransform_contract (localExt toExt value : String) :
    ((BasicFileExtensionTransform.mk localExt toExt).isLocalFile value = true ↔
      localExt.data <:+ value.data) ∧
    ∀ p : List Char, value.data = p ++ localExt.data →
      ((BasicFileExtensionTransform.mk localExt toExt).transform value).data
        = p ++ toExt.data := by
  constructor
  · exact List.isSuffixOf_iff_suffix
  · intro p hsuffix
    unfold BasicFileExtensionTransform.transform
    rw [String.data_append]
    have hcut : jsSubstring value.data 0
        ((value.data.length : Int) - (localExt.data.length : Int)) = p := by
      rw [hsuffix]
      have hb : (((p ++ localExt.data).length : Int)
          - (localExt.data.length : Int)) = (p.length : Int) := by
        rw [List.length_append]
        push_cast
        ring
      rw [hb, jsSubstring_zero_take _ _ (by simp [List.length_append])]
      exact List.take_left p localExt.data
    rw [hcut]

/-- C8 witness: the `.js` → `.mjs` policy classifies `./a.js` as local and
rewrites it to `./a.mjs`, and classifies the non-suffixed `left-pad` as not
local. -/
theorem basicTransform_contract_witness :
    (((BasicFileExtensionTransform.mk ".js" ".mjs").isLocalFile "./a.js"
        = true ↔ ".js".data <:+ "./a.js".data) ∧
     ("./a.js".data = "./a".data ++ ".js".data) ∧
     ((BasicFileExtensionTransform.mk ".js" ".mjs").transform "./a.js").data
        = "./a".data ++ ".mjs".data) ∧
    (BasicFileExtensionTransform.mk ".js" ".mjs").isLocalFile "left-pad"
      = false :=
  ⟨⟨(basicTransform_contract ".js" ".mjs" "./a.js").1, by decide,
    (basicTransform_contract ".js" ".mjs" "./a.js").2 ("./a".data)
      (by decide)⟩,
   by decide⟩

/-- C9: when a `modifyToFile` call fails at any step, the returned instance
is the unchanged input — the written flag is only assigned after the write
completes — so a later `modifyToFile` on that instance is never rejected with
the already-written error while the flag is still unset. -/
theorem modifyToFile_failure_keeps_flag (io io2 : IOBehavior)
    (m : ImportModifier) (w w2 : World)
    (hfail : (modifyToFile io m w).1.isOk = false)
    (hnt : m.fileTransformed = false) :
    (modifyToFile io m w).2.1 = m ∧
    (modifyToFile io2 m w2).1 ≠ Except.error ModError.alreadyTransformed := by
  obtain ⟨o, r, wr⟩ := io
  obtain ⟨o2, r2, wr2⟩ := io2
  by_cases hi : m.initialized = false <;>
    cases o <;> cases r <;> cases wr <;> cases o2 <;> cases r2 <;> cases wr2 <;>
    simp_all [modifyToFile, initGuard, Except.isOk, Except.toBool]

/-- C9 witness: a failed write on the concrete initialized instance leaves it
retryable. -/
theorem modifyToFile_failure_keeps_flag_witness :
    ((modifyToFile ⟨true, true, false⟩ mInitJs wA).1.isOk = false ∧
     mInitJs.fileTransformed = false) ∧
    ((modifyToFile ⟨true, true, false⟩ mInitJs wA).2.1 = mInitJs ∧
     (modifyToFile ioAllOk mInitJs wA).1
        ≠ Except.error ModError.alreadyTransformed) :=
  ⟨⟨by decide, by decide⟩,
   modifyToFile_failure_keeps_flag ⟨true, true, false⟩ ioAllOk mInitJs wA wA
     (by decide) (by decide)⟩

/-- C10: `modifyToBuffer` mutates no instance state — the returned instance
is the input, with the written flag still unset and the cached literal list
unchanged — so after initialization a later `modifyToFile` still succeeds;
and the `localImports` accessor fails with the not-initialized error before
initialization and returns the cached literal list afterward. -/
theorem modifyToBuffer_pure_frame (io : IOBehavior) (m mpre : ImportModifier)
    (w w2 : World) (hinit : m.initialized = true)
    (hnt : m.fileTransformed = false) (hpre : mpre.initialized = false) :
    (modifyToBuffer io m w).2.1 = m ∧
    (modifyToBuffer io m w).2.1.fileTransformed = false ∧
    (modifyToBuffer io m w).2.1.substituteLiterals = m.substituteLiterals ∧
    (modifyToFile ioAllOk ((modifyToBuffer io m w).2.1) w2).1
      = Except.ok () ∧
    localImports mpre = Except.error ModError.notInitialized ∧
    localImports m = Except.ok m.substituteLiterals := by
  have hm : (modifyToBuffer io m w).2.1 = m := by
    obtain ⟨o, r, wr⟩ := io
    cases o <;> cases r <;> simp [modifyToBuffer, initGuard, hinit]
  refine ⟨hm, ?_, ?_, ?_, ?_, ?_⟩
  · rw [hm]; exact hnt
  · rw [hm]
  · rw [hm]; simp [modifyToFile, initGuard, hinit, hnt, ioAllOk]
  · simp [localImports, initGuard, hpre]
  · simp [localImports, initGuard, hinit]

/-- C10 witness: repeated buffer materialization on the concrete instance,
followed by a successful write; `localImports` guarded before `init` and
serving the cache after. -/
theorem modifyToBuffer_pure_frame_witness :
    (mInitJs.initialized = true ∧ mInitJs.fileTransformed = false ∧
     mJs.initialized = false) ∧
    ((modifyToBuffer ioAllOk mInitJs wA).2.1 = mInitJs ∧
     (modifyToBuffer ioAllOk mInitJs wA).2.1.fileTransformed = false ∧
     (modifyToBuffer ioAllOk mInitJs wA).2.1.substituteLiterals
        = mInitJs.substituteLiterals ∧
     (modifyToFile ioAllOk ((modifyToBuffer ioAllOk mInitJs wA).2.1) wA).1
        = Except.ok () ∧
     localImports mJs = Except.error ModError.notInitialized ∧
     localImports mInitJs = Except.ok mInitJs.substituteLiterals) :=
  ⟨⟨by decide, by decide, by decide⟩,
   modifyToBuffer_pure_frame ioAllOk mInitJs mJs wA wA (by decide) (by decide)
     (by decide)⟩
